import Mathlib

/-!
Shallow embedding of `src/functions/datastore-integration-orderdesk/DataStore.js`:
the OrderDesk datastore adapter (credential parsing, request building, order
mapping, inventory validation and canonicalization).
-/

/-- A JavaScript value, restricted to the shapes the adapter manipulates:
`undefined`, `null`, booleans, (integer) numbers, strings and plain objects.
Arrays occur in the payloads only at statically known places and are modelled
there by typed `List` fields. -/
inductive JSVal where
  | undef : JSVal
  | null : JSVal
  | bool : Bool → JSVal
  | num : Int → JSVal
  | str : String → JSVal
  | obj : List (String × JSVal) → JSVal

/-- A JavaScript plain object: an ordered list of key/value entries
(object literals have unique keys; lookup takes the first occurrence). -/
abbrev JSObj := List (String × JSVal)

/-- JS property read `o.k`: the value of the first entry named `k`,
`undefined` when the key is absent. -/
def getField : JSObj → String → JSVal
  | [], _ => JSVal.undef
  | (k', v) :: rest, k => if k' = k then v else getField rest k

/-- Whether the object has an own property named `k`. -/
def hasField : JSObj → String → Bool
  | [], _ => false
  | (k', _) :: rest, k => k' == k || hasField rest k

/-- JS property write / object-literal override `{...o, k: v}`: replaces the
value of an existing key in place (keeping its position), appends otherwise. -/
def setField : JSObj → String → JSVal → JSObj
  | [], k, v => [(k, v)]
  | (k', v') :: rest, k, v =>
    if k' = k then (k, v) :: rest else (k', v') :: setField rest k v

/-- JS `delete o.k`: removes the entries named `k`. -/
def objDelete (o : JSObj) (k : String) : JSObj :=
  o.filter fun e => !(e.1 == k)

/-- JS truthiness (`undefined`, `null`, `false`, `0`, `""` are falsy,
everything else — objects included — is truthy). -/
def truthy : JSVal → Bool
  | JSVal.undef => false
  | JSVal.null => false
  | JSVal.bool b => b
  | JSVal.num n => !(n == 0)
  | JSVal.str s => !(s == "")
  | JSVal.obj _ => true

/-- JS strict comparison `v === 0`: true exactly for the number `0`. -/
def strictEqZero : JSVal → Bool
  | JSVal.num n => n == 0
  | _ => false

/-- JS `ToString` as used by template literals: `undefined` prints as the
string "undefined"; a plain object prints as "[object Object]". -/
def jsToString : JSVal → String
  | JSVal.undef => "undefined"
  | JSVal.null => "null"
  | JSVal.bool true => "true"
  | JSVal.bool false => "false"
  | JSVal.num n => toString n
  | JSVal.str s => s
  | JSVal.obj _ => "[object Object]"

/-- A thrown JavaScript `Error`.  Per ECMAScript, `new Error(message, options)`
installs a `cause` only when `options` is an object carrying a `cause`
property; any primitive second argument is silently ignored. -/
structure JsError where
  message : String
  cause : Option JSVal

/-- `new Error(message)` — one-argument form. -/
def jsNewError0 (message : String) : JsError :=
  { message := message, cause := none }

/-- `new Error(message, options)` — two-argument form.  A `cause` is taken
from `options` only when `options` is an object with a `cause` property;
a string (or other primitive) contributes nothing. -/
def jsNewError (message : String) (options : JSVal) : JsError :=
  match options with
  | JSVal.obj fields =>
    { message := message,
      cause := if hasField fields "cause" then some (getField fields "cause") else none }
  | _ => { message := message, cause := none }

/-- Default `Object.prototype.toString` of a plain object, as used by
`Array.prototype.join` on an array of objects. -/
def jsObjToString (_ : JSObj) : String := "[object Object]"

/-- JS `arr.join(',')` on an array of plain objects. -/
def jsJoinComma (l : List JSObj) : String :=
  String.intercalate "," (l.map jsObjToString)

/-- The slice of the configuration module the adapter reads:
`config.datastore.credentials` (a possibly absent combined string) and
`config.datastore.provider.orderDesk.storeId` / `.apiKey` (possibly absent
discrete fields). -/
structure Config where
  credentials : Option String
  storeId : Option String
  apiKey : Option String
deriving DecidableEq

/-- The resolved credentials `{id, key}`.  The fields are `Option` because the
discrete-field fallback copies possibly absent configuration values. -/
structure Credentials where
  id : Option String
  key : Option String
deriving DecidableEq

/-- JS truthiness of a possibly absent string (`undefined` and `""` are falsy). -/
def optTruthy : Option String → Bool
  | none => false
  | some s => !(s == "")

/-- Whether `c` is an ASCII digit, i.e. matches `\d` over this data. -/
def isDigitCh (c : Char) : Bool :=
  '0' ≤ c && c ≤ '9'

/-- Whether `c` matches the character class `[A-Za-z0-9]`. -/
def isAlnumCh (c : Char) : Bool :=
  isDigitCh c || ('a' ≤ c && c ≤ 'z') || ('A' ≤ c && c ≤ 'Z')

/-- Consume the literal `lit` at the front of `l`, returning the rest. -/
def matchLiteral : List Char → List Char → Option (List Char)
  | [], l => some l
  | _, [] => none
  | p :: ps, c :: cs => if c = p then matchLiteral ps cs else none

/-- Try the regular expression `Store ID (\d{5}) API Key ([A-Za-z0-9]+)$`
at one start position: the input from here must read `Store ID `, then
exactly five digits, then ` API Key `, then one or more alphanumerics
running to the end of the string.  Returns the two capture groups. -/
def matchCredsAt (l : List Char) : Option (String × String) :=
  match matchLiteral "Store ID ".toList l with
  | none => none
  | some rest =>
    let ds := rest.take 5
    let rest2 := rest.drop 5
    if ds.length = 5 && ds.all isDigitCh then
      match matchLiteral " API Key ".toList rest2 with
      | none => none
      | some keyPart =>
        if !keyPart.isEmpty && keyPart.all isAlnumCh then
          some (String.mk ds, String.mk keyPart)
        else none
    else none

/-- The regex engine's scan: try `matchCredsAt` at every start position from
the left and keep the first (leftmost) success — the semantics of
`String.prototype.match` for this unanchored-start, end-anchored pattern. -/
def findCredsMatch : List Char → Option (String × String)
  | [] => none
  | c :: rest =>
    match matchCredsAt (c :: rest) with
    | some r => some r
    | none => findCredsMatch rest

/-- `rawCredentials.match(/Store ID (\d{5}) API Key ([A-Za-z0-9]+)$/)`,
reduced to its two capture groups.  On success the JS match array is
`[whole, group1, group2]`, so the source's `matched.length === 3` test is
always satisfied by a successful match of this fixed two-group pattern. -/
def jsMatchCredentials (s : String) : Option (String × String) :=
  findCredsMatch s.toList

/-- `parseConfigCredentials(config)`: if the combined credentials string is
present (truthy) and matches the pattern, the two capture groups become the
id and key; otherwise the discrete provider fields are returned. -/
def parseConfigCredentials (cfg : Config) : Credentials :=
  let matched : Option (String × String) :=
    if optTruthy cfg.credentials then jsMatchCredentials (cfg.credentials.getD "")
    else none
  match matched with
  | some (i, k) => { id := some i, key := some k }
  | none => { id := cfg.storeId, key := cfg.apiKey }

/-- `setCredentials()`: parse the configuration and throw when either the key
or the id is missing/empty; otherwise store the credentials. -/
def setCredentials (cfg : Config) : Except JsError Credentials :=
  let credentials := parseConfigCredentials cfg
  if !optTruthy credentials.key || !optTruthy credentials.id then
    Except.error (jsNewError0
      "Environment variables for OrderDesk store id and/or API key are missing.")
  else
    Except.ok credentials

/-- The constructed adapter: the fixed domain and API prefix set by the
constructor, plus the credentials resolved by `setCredentials`. -/
structure DataStore where
  domain : String
  api : String
  credentials : Credentials
deriving DecidableEq

/-- The `DataStore` constructor: sets `domain = "app.orderdesk.me"` and
`api = "api/v2/"`, then calls `setCredentials()`; an error thrown there
propagates, so no adapter value is produced. -/
def DataStore.make (cfg : Config) : Except JsError DataStore :=
  (setCredentials cfg).map fun creds =>
    { domain := "app.orderdesk.me", api := "api/v2/", credentials := creds }

/-- `getDefaultHeader()`.  A constructed adapter always holds string
credentials (`setCredentials` throws otherwise), so the `getD ""` defaults
are never exercised on a value produced by `DataStore.make`. -/
def getDefaultHeader (ds : DataStore) : List (String × String) :=
  [("Content-Type", "application/json"),
   ("ORDERDESK-API-KEY", ds.credentials.key.getD ""),
   ("ORDERDESK-STORE-ID", ds.credentials.id.getD "")]

/-- `buildEndpoint(path)`. -/
def buildEndpoint (ds : DataStore) (path : String) : String :=
  "https://" ++ ds.domain ++ "/" ++ ds.api ++ path

/-- An outbound HTTP request, as handed to `fetch`: the URL, the method, the
headers, and the data serialized into the body (`β = Unit` for a GET). -/
structure HttpRequest (β : Type) where
  url : String
  method : String
  headers : List (String × String)
  body : β

/-- `validateInventoryItem(item)`:
`!!(item.id && item.name && item.code && (item.price || item.price === 0)
&& (item.stock || item.stock === 0))`. -/
def validateInventoryItem (item : JSObj) : Bool :=
  truthy (getField item "id") && truthy (getField item "name") &&
  truthy (getField item "code") &&
  (truthy (getField item "price") || strictEqZero (getField item "price")) &&
  (truthy (getField item "stock") || strictEqZero (getField item "stock"))

/-- `convertToCanonical(orderDeskItem)`: the object literal
`{...orderDeskItem, update_source: 'Foxy-Orderdesk-Webhook',
inventory: orderDeskItem.stock}` — a copy of the input with those two keys
overridden in place (or appended when absent). -/
def convertToCanonical (orderDeskItem : JSObj) : JSObj :=
  setField (setField orderDeskItem "update_source" (JSVal.str "Foxy-Orderdesk-Webhook"))
    "inventory" (getField orderDeskItem "stock")

/-- `updateInventoryItems(items)`: filter out the items failing validation;
if any exist, throw (before any network traffic — the `Except.error` branch
produces no request); otherwise issue one PUT of the whole batch.  The
invalid-items string is passed as the ignored second `Error` argument. -/
def updateInventoryItems (ds : DataStore) (items : List JSObj) :
    Except JsError (HttpRequest (List JSObj)) :=
  let invalid := items.filter fun i => !validateInventoryItem i
  if invalid.length ≠ 0 then
    Except.error (jsNewError "Invalid inventory items for update"
      (JSVal.str (jsJoinComma invalid)))
  else
    Except.ok
      { url := buildEndpoint ds "batch-inventory-items",
        method := "PUT",
        headers := getDefaultHeader ds,
        body := items }

/-- One hexadecimal digit (uppercase), for percent-encoding. -/
def hexDigit (n : Nat) : Char :=
  if n < 10 then Char.ofNat ('0'.toNat + n) else Char.ofNat ('A'.toNat + (n - 10))

/-- UTF-8 encoding of one character, as the list of its byte values. -/
def utf8Bytes (c : Char) : List Nat :=
  let n := c.toNat
  if n < 0x80 then [n]
  else if n < 0x800 then [0xC0 + n / 0x40, 0x80 + n % 0x40]
  else if n < 0x10000 then
    [0xE0 + n / 0x1000, 0x80 + (n / 0x40) % 0x40, 0x80 + n % 0x40]
  else
    [0xF0 + n / 0x40000, 0x80 + (n / 0x1000) % 0x40,
     0x80 + (n / 0x40) % 0x40, 0x80 + n % 0x40]

/-- One byte under the `application/x-www-form-urlencoded` serializer used by
`URLSearchParams`: space becomes `+`; ASCII alphanumerics and `*`, `-`, `.`,
`_` stay verbatim; every other byte is percent-encoded in uppercase hex. -/
def formEncodeByte (b : Nat) : String :=
  if b = 0x20 then "+"
  else if b = 0x2A || b = 0x2D || b = 0x2E || b = 0x5F ||
          (0x30 ≤ b && b ≤ 0x39) || (0x41 ≤ b && b ≤ 0x5A) ||
          (0x61 ≤ b && b ≤ 0x7A) then
    String.singleton (Char.ofNat b)
  else
    "%" ++ String.singleton (hexDigit (b / 16)) ++ String.singleton (hexDigit (b % 16))

/-- `application/x-www-form-urlencoded` serialization of a string: encode its
UTF-8 bytes one by one. -/
def formUrlEncode (s : String) : String :=
  String.join (((s.toList.map utf8Bytes).flatten).map formEncodeByte)

/-- `new URLSearchParams({code: v}).toString()`. -/
def urlSearchParamsCode (v : String) : String :=
  "code=" ++ formUrlEncode v

/-- The parsed JSON body of an `inventory-items` response: the
`inventory_items` field is an array of records when present, absent
(`none`, i.e. `undefined` on access) otherwise. -/
structure InventoryItemsResponse where
  inventory_items : Option (List JSObj)

/-- `fetchInventoryItems(items)`: issue a GET to the `inventory-items`
endpoint with the comma-joined codes as the `code` query parameter, and
return `(await response.json()).inventory_items` — the field's array when
present, `undefined` (`none`) when the field is absent.  The response body
is a parameter of the model. -/
def fetchInventoryItems (ds : DataStore) (items : List String)
    (response : InventoryItemsResponse) :
    HttpRequest Unit × Option (List JSObj) :=
  ({ url := buildEndpoint ds "inventory-items" ++ "?" ++
        urlSearchParamsCode (String.intercalate "," items),
     method := "GET",
     headers := getDefaultHeader ds,
     body := () },
   response.inventory_items)

/-- The result of a JS expression that is either a plain object or
`undefined` (e.g. indexing an empty array). -/
inductive ObjOrUndef where
  | undef : ObjOrUndef
  | obj : JSObj → ObjOrUndef

/-- Reading a possibly absent object-valued property. -/
def ouOfOption : Option JSObj → ObjOrUndef
  | none => ObjOrUndef.undef
  | some o => ObjOrUndef.obj o

/-- JS `arr[0]` on an array of objects: `undefined` when the array is empty. -/
def jsIndex0 : List JSObj → ObjOrUndef
  | [] => ObjOrUndef.undef
  | o :: _ => ObjOrUndef.obj o

/-- JS object spread `{...x}`: a fresh object with the same entries;
spreading `undefined` yields the empty object. -/
def spreadOf : ObjOrUndef → JSObj
  | ObjOrUndef.undef => []
  | ObjOrUndef.obj o => o

/-- The TypeError raised by a property read on `undefined`. -/
def typeErrorUndefinedProp : JsError :=
  jsNewError0 "Cannot read properties of undefined"

/-- The `_embedded` relations of the upstream order payload.  Each key is
either absent or carries its documented shape: a customer object, arrays of
shipment/payment objects, an array of line items.  Note that a present array
is truthy in JS even when empty. -/
structure EmbeddedRelations where
  fxCustomer : Option JSObj
  fxShipments : Option (List JSObj)
  fxPayments : Option (List JSObj)
  fxItems : Option (List JSObj)

/-- The upstream order payload: the top-level fields `createOrder` reads,
plus the `_embedded` relations. -/
structure OrderBody where
  id : JSVal
  customer_email : JSVal
  total_item_price : JSVal
  total_shipping : JSVal
  total_tax : JSVal
  total_discount : JSVal
  total_order : JSVal
  embedded : EmbeddedRelations

/-- The vendor order object, with exactly the fields the source assigns,
in assignment order.  `payment_sattus` (sic) is assigned `order.status`,
a property never set on the object under construction, hence `undefined`. -/
structure VendorOrder where
  id : JSVal
  email : JSVal
  customer : JSObj
  shipping : JSObj
  source_name : String
  customer_id : JSVal
  product_total : JSVal
  shipping_total : JSVal
  tax_total : JSVal
  discount_total : JSVal
  order_total : JSVal
  cc_number_masked : JSVal
  cc_exp : String
  processor_response : JSVal
  payment_sattus : JSVal
  payment_type : JSVal
  order_items : Option (List JSObj)

/-- `createOrder(body)`: project the embedded relations, build the flat
vendor order, and POST it to the `orders` endpoint.  The result pairs the
issued request (whose `body` is the order serialized by `JSON.stringify`)
with the caller's payload as it stands after the call: the source's
`delete shipping._links` acts on the object freshly created by the spread
`{...fxShipment}`, never on the caller's shipment, so the payload comes back
unchanged.  A property read on an `undefined` relation (customer absent, or
a present-but-empty payments array) throws a TypeError instead. -/
def createOrder (ds : DataStore) (body : OrderBody) :
    Except JsError (HttpRequest VendorOrder × OrderBody) :=
  let fxCustomer : ObjOrUndef := ouOfOption body.embedded.fxCustomer
  let fxShipment : ObjOrUndef :=
    match body.embedded.fxShipments with
    | some l => jsIndex0 l
    | none => ObjOrUndef.obj []
  let fxPayment : ObjOrUndef :=
    match body.embedded.fxPayments with
    | some l => jsIndex0 l
    | none => ObjOrUndef.obj []
  let fxItems := body.embedded.fxItems
  match fxCustomer with
  | ObjOrUndef.undef => Except.error typeErrorUndefinedProp
  | ObjOrUndef.obj cust =>
    let customer : JSObj :=
      [("first_name", getField cust "first_name"),
       ("last_name", getField cust "last_name")]
    let shipping : JSObj := objDelete (spreadOf fxShipment) "_links"
    match fxPayment with
    | ObjOrUndef.undef => Except.error typeErrorUndefinedProp
    | ObjOrUndef.obj pay =>
      let order : VendorOrder :=
        { id := body.id,
          email := body.customer_email,
          customer := customer,
          shipping := shipping,
          source_name := "Foxy.io",
          customer_id := getField cust "id",
          product_total := body.total_item_price,
          shipping_total := body.total_shipping,
          tax_total := body.total_tax,
          discount_total := body.total_discount,
          order_total := body.total_order,
          cc_number_masked := getField pay "cc_number_masked",
          cc_exp := jsToString (getField pay "cc_exp_month") ++ "/" ++
                    jsToString (getField pay "cc_exp_year"),
          processor_response := getField pay "processor_response",
          payment_sattus := JSVal.undef,
          payment_type := getField pay "cc_type",
          order_items := fxItems }
      Except.ok
        ({ url := buildEndpoint ds "orders",
           method := "POST",
           headers := getDefaultHeader ds,
           body := order },
         body)

/-- The value is a string or `undefined` — the shape of the `id`, `name` and
`code` fields of an inventory record (possibly absent). -/
def jsIsStringOrUndef : JSVal → Bool
  | JSVal.undef => true
  | JSVal.str _ => true
  | _ => false

/-- The value is a number or `undefined` — the shape of the `price` and
`stock` fields of an inventory record (possibly absent). -/
def jsIsNumberOrUndef : JSVal → Bool
  | JSVal.undef => true
  | JSVal.num _ => true
  | _ => false

/-- The value is a non-empty string. -/
def jsIsNonEmptyString : JSVal → Bool
  | JSVal.str s => !(s == "")
  | _ => false

/-- The value is a number. -/
def jsIsNumber : JSVal → Bool
  | JSVal.num _ => true
  | _ => false

/-- The boundary inventory item of the spec:
`{id:"1", name:"A", code:"SKU1", price:0, stock:0}`. -/
def boundaryItem : JSObj :=
  [("id", JSVal.str "1"), ("name", JSVal.str "A"), ("code", JSVal.str "SKU1"),
   ("price", JSVal.num 0), ("stock", JSVal.num 0)]

/-- A concrete constructed adapter, as produced by `DataStore.make` from a
configuration holding the combined string `Store ID 12345 API Key abc9`. -/
def sampleStore : DataStore :=
  { domain := "app.orderdesk.me", api := "api/v2/",
    credentials := { id := some "12345", key := some "abc9" } }

/-- A concrete order payload with a customer but no `fx:shipments` and no
`fx:payments` relations. -/
def orderBodyNoShipPay : OrderBody :=
  { id := JSVal.num 11,
    customer_email := JSVal.str "ann@example.com",
    total_item_price := JSVal.num 10,
    total_shipping := JSVal.num 2,
    total_tax := JSVal.num 1,
    total_discount := JSVal.num 0,
    total_order := JSVal.num 13,
    embedded :=
      { fxCustomer := some
          [("first_name", JSVal.str "Ann"), ("last_name", JSVal.str "Lee"),
           ("id", JSVal.num 7)],
        fxShipments := none,
        fxPayments := none,
        fxItems := some [] } }

/-- A concrete shipment object carrying link metadata. -/
def shipmentWithLinks : JSObj :=
  [("_links", JSVal.str "L"), ("carrier", JSVal.str "UPS")]

/-- A concrete order payload whose first (and only) shipment carries link
metadata. -/
def orderBodyWithShipmentLinks : OrderBody :=
  { id := JSVal.num 12,
    customer_email := JSVal.str "ann@example.com",
    total_item_price := JSVal.num 10,
    total_shipping := JSVal.num 2,
    total_tax := JSVal.num 1,
    total_discount := JSVal.num 0,
    total_order := JSVal.num 13,
    embedded :=
      { fxCustomer := some
          [("first_name", JSVal.str "Ann"), ("last_name", JSVal.str "Lee"),
           ("id", JSVal.num 7)],
        fxShipments := some [shipmentWithLinks],
        fxPayments := none,
        fxItems := none } }

/-- The caller's payload as it stands after `createOrder` returns (on a
thrown error the mapping aborted before any statement touching caller
state, so the payload also stands unchanged). -/
def createOrderPayloadAfter (ds : DataStore) (body : OrderBody) : OrderBody :=
  match createOrder ds body with
  | Except.ok (_, b) => b
  | Except.error _ => body

/-- The `_links` value of the `shipping` object sent by `createOrder`
(`undefined` when the call threw). -/
def createOrderShippingLinks (ds : DataStore) (body : OrderBody) : JSVal :=
  match createOrder ds body with
  | Except.ok (req, _) => getField req.body.shipping "_links"
  | Except.error _ => JSVal.undef

/-- The first shipment of the caller's payload after `createOrder` returns
(the empty object when there is none or the call threw). -/
def firstShipmentAfter : Except JsError (HttpRequest VendorOrder × OrderBody) → JSObj
  | Except.ok (_, b) =>
    (match b.embedded.fxShipments with
     | some (s :: _) => s
     | _ => [])
  | Except.error _ => []

theorem getField_setField_self (l : JSObj) (k : String) (v : JSVal) :
    getField (setField l k v) k = v := by
  induction l with
  | nil => simp [setField, getField]
  | cons e rest ih =>
    obtain ⟨k', v'⟩ := e
    by_cases h : k' = k
    · simp [setField, h, getField]
    · simp [setField, h, getField, ih]

theorem getField_setField_ne (l : JSObj) (k k' : String) (v : JSVal) (h : k' ≠ k) :
    getField (setField l k v) k' = getField l k' := by
  induction l with
  | nil => simp [setField, getField, Ne.symm h]
  | cons e rest ih =>
    obtain ⟨k'', v''⟩ := e
    by_cases hk : k'' = k
    · subst hk
      simp [setField, getField, Ne.symm h]
    · simp [setField, hk, getField, ih]

theorem hasField_setField_self (l : JSObj) (k : String) (v : JSVal) :
    hasField (setField l k v) k = true := by
  induction l with
  | nil => simp [setField, hasField]
  | cons e rest ih =>
    obtain ⟨k', v'⟩ := e
    by_cases h : k' = k
    · simp [setField, h, hasField]
    · simp [setField, h, hasField, ih]

theorem hasField_setField_ne (l : JSObj) (k k' : String) (v : JSVal) (h : k' ≠ k) :
    hasField (setField l k v) k' = hasField l k' := by
  induction l with
  | nil => simp [setField, hasField, Ne.symm h]
  | cons e rest ih =>
    obtain ⟨k'', v''⟩ := e
    by_cases hk : k'' = k
    · subst hk
      simp [setField, hasField, Ne.symm h]
    · simp [setField, hk, hasField, ih]

theorem setField_eq_self (l : JSObj) (k : String) (v : JSVal)
    (hh : hasField l k = true) (hg : getField l k = v) : setField l k v = l := by
  induction l with
  | nil => simp [hasField] at hh
  | cons e rest ih =>
    obtain ⟨k', v'⟩ := e
    by_cases h : k' = k
    · subst h
      simp [getField] at hg
      simp [setField, hg]
    · simp [hasField, h] at hh
      simp [getField, h] at hg
      simp [setField, h, ih hh hg]

theorem getField_objDelete_self (o : JSObj) (k : String) :
    getField (objDelete o k) k = JSVal.undef := by
  induction o with
  | nil => rfl
  | cons e rest ih =>
    obtain ⟨k', v'⟩ := e
    by_cases h : k' = k
    · simpa [objDelete, h] using ih
    · simpa [objDelete, getField, h] using ih

theorem jsMatchCredentials_empty : jsMatchCredentials "" = none := rfl

theorem parseConfigCredentials_of_match (cfg : Config) (s i k : String)
    (hs : cfg.credentials = some s) (hm : jsMatchCredentials s = some (i, k)) :
    parseConfigCredentials cfg = { id := some i, key := some k } := by
  have hsne : s ≠ "" := by
    intro h
    rw [h, jsMatchCredentials_empty] at hm
    exact Option.noConfusion hm
  simp [parseConfigCredentials, hs, optTruthy, hsne, hm]

theorem parseConfigCredentials_of_noMatch (cfg : Config)
    (hm : ∀ s, cfg.credentials = some s → jsMatchCredentials s = none) :
    parseConfigCredentials cfg = { id := cfg.storeId, key := cfg.apiKey } := by
  cases hcr : cfg.credentials with
  | none => simp [parseConfigCredentials, hcr, optTruthy]
  | some s =>
    by_cases hse : s = ""
    · subst hse
      simp [parseConfigCredentials, hcr, optTruthy]
    · simp [parseConfigCredentials, hcr, optTruthy, hse, hm s hcr]

/-- C1: for every configuration whose combined credentials string matches
`Store ID (\d{5}) API Key ([A-Za-z0-9]+)` anchored at the end of the string,
`parseConfigCredentials` returns `{id, key}` equal to the two captured
groups; for every configuration whose combined string is absent or fails to
match, it returns the discrete `storeId`/`apiKey` fields instead. -/
theorem parseConfigCredentials_spec (cfg : Config) :
    (∀ s i k, cfg.credentials = some s → jsMatchCredentials s = some (i, k) →
      parseConfigCredentials cfg = { id := some i, key := some k }) ∧
    ((∀ s, cfg.credentials = some s → jsMatchCredentials s = none) →
      parseConfigCredentials cfg = { id := cfg.storeId, key := cfg.apiKey }) :=
  ⟨fun s i k hs hm => parseConfigCredentials_of_match cfg s i k hs hm,
   fun hm => parseConfigCredentials_of_noMatch cfg hm⟩

/-- C1 witness: a concrete combined string whose match yields the groups
`"12345"` and `"abc9"`, and which `parseConfigCredentials` resolves to
exactly those, ignoring the discrete fields. -/
theorem parseConfigCredentials_spec_witness :
    parseConfigCredentials
      { credentials := some "x Store ID 12345 API Key abc9",
        storeId := some "99999", apiKey := some "other" } =
      { id := some "12345", key := some "abc9" } :=
  (parseConfigCredentials_spec
      { credentials := some "x Store ID 12345 API Key abc9",
        storeId := some "99999", apiKey := some "other" }).1
    "x Store ID 12345 API Key abc9" "12345" "abc9" rfl (by decide)

/-- C2: for every configuration from which neither the combined credentials
string (no match) nor the discrete fields (one of them absent or empty)
yield both a non-empty id and a non-empty key, the `DataStore` constructor
throws the configuration error and no adapter value is produced. -/
theorem datastore_construction_fails_without_credentials (cfg : Config)
    (hm : ∀ s, cfg.credentials = some s → jsMatchCredentials s = none)
    (hd : optTruthy cfg.storeId = false ∨ optTruthy cfg.apiKey = false) :
    DataStore.make cfg = Except.error (jsNewError0
      "Environment variables for OrderDesk store id and/or API key are missing.") := by
  have hp := parseConfigCredentials_of_noMatch cfg hm
  rcases hd with hd | hd
  · simp [DataStore.make, setCredentials, hp, hd, Except.map]
  · simp [DataStore.make, setCredentials, hp, hd, Except.map]

/-- C2 witness: a configuration with no combined string and no store id
fails construction with the configuration error. -/
theorem datastore_construction_fails_without_credentials_witness :
    DataStore.make { credentials := none, storeId := none, apiKey := some "k" } =
      Except.error (jsNewError0
        "Environment variables for OrderDesk store id and/or API key are missing.") :=
  datastore_construction_fails_without_credentials
    { credentials := none, storeId := none, apiKey := some "k" }
    (fun _ h => nomatch h) (Or.inl rfl)

theorem truthy_eq_isNonEmptyString (v : JSVal) (h : jsIsStringOrUndef v = true) :
    truthy v = jsIsNonEmptyString v := by
  cases v <;> simp_all [jsIsStringOrUndef, truthy, jsIsNonEmptyString]

theorem truthy_or_strictEqZero_eq_isNumber (v : JSVal) (h : jsIsNumberOrUndef v = true) :
    (truthy v || strictEqZero v) = jsIsNumber v := by
  cases v <;> simp_all [jsIsNumberOrUndef, truthy, strictEqZero, jsIsNumber]

/-- C3: over items of the documented field shapes (string-or-absent `id`,
`name`, `code`; number-or-absent `price`, `stock`), `validateInventoryItem`
returns `true` if and only if the item has a non-empty `id`, a non-empty
`name`, a non-empty `code`, a `price` that is a number (`0` included), and a
`stock` that is a number (`0` included); in particular any item missing
`id`, `name` or `code` is rejected. -/
theorem validateInventoryItem_spec (item : JSObj)
    (hid : jsIsStringOrUndef (getField item "id") = true)
    (hname : jsIsStringOrUndef (getField item "name") = true)
    (hcode : jsIsStringOrUndef (getField item "code") = true)
    (hprice : jsIsNumberOrUndef (getField item "price") = true)
    (hstock : jsIsNumberOrUndef (getField item "stock") = true) :
    validateInventoryItem item = true ↔
      (jsIsNonEmptyString (getField item "id") = true ∧
       jsIsNonEmptyString (getField item "name") = true ∧
       jsIsNonEmptyString (getField item "code") = true ∧
       jsIsNumber (getField item "price") = true ∧
       jsIsNumber (getField item "stock") = true) := by
  unfold validateInventoryItem
  rw [truthy_eq_isNonEmptyString _ hid, truthy_eq_isNonEmptyString _ hname,
      truthy_eq_isNonEmptyString _ hcode,
      truthy_or_strictEqZero_eq_isNumber _ hprice,
      truthy_or_strictEqZero_eq_isNumber _ hstock]
  simp [Bool.and_eq_true, and_assoc]

/-- C3 witness: the boundary item `{id:"1", name:"A", code:"SKU1", price:0,
stock:0}` satisfies the field-shape hypotheses and is accepted. -/
theorem validateInventoryItem_spec_witness :
    validateInventoryItem boundaryItem = true :=
  (validateInventoryItem_spec boundaryItem rfl rfl rfl rfl rfl).mpr
    ⟨rfl, rfl, rfl, rfl, rfl⟩

/-- C4: whenever the input list contains an item failing
`validateInventoryItem`, `updateInventoryItems` throws; the error branch
carries no `HttpRequest`, so no network request — and in particular no
partial submission — ever occurs for such a batch. -/
theorem updateInventoryItems_throws_on_invalid (ds : DataStore) (items : List JSObj)
    (h : ∃ i ∈ items, validateInventoryItem i = false) :
    ∃ e, updateInventoryItems ds items = Except.error e := by
  obtain ⟨x, hx, hv⟩ := h
  have hmem : x ∈ items.filter (fun i => !validateInventoryItem i) :=
    List.mem_filter.mpr ⟨hx, by simp [hv]⟩
  have hne : (items.filter (fun i => !validateInventoryItem i)).length ≠ 0 := by
    intro h0
    rw [List.length_eq_zero] at h0
    rw [h0] at hmem
    exact List.not_mem_nil x hmem
  exact ⟨jsNewError "Invalid inventory items for update"
      (JSVal.str (jsJoinComma (items.filter fun i => !validateInventoryItem i))),
    by unfold updateInventoryItems; rw [if_pos hne]⟩

/-- C4 witness: a batch holding the empty object (which fails validation)
makes `updateInventoryItems` throw. -/
theorem updateInventoryItems_throws_on_invalid_witness :
    ∃ e, updateInventoryItems sampleStore [[]] = Except.error e :=
  updateInventoryItems_throws_on_invalid sampleStore [[]] ⟨[], by simp, rfl⟩

/-- C5: evaluating `updateInventoryItems` on one valid and one invalid item
shows the thrown error is `Error("Invalid inventory items for update")` with
no cause: the `invalid.join(',')` expression is passed as the second
argument of the `Error` constructor, which ignores a string there, so
nothing in the thrown error references the invalid items. -/
theorem updateInventoryItems_error_lacks_item_details :
    updateInventoryItems sampleStore [boundaryItem, []] =
      Except.error { message := "Invalid inventory items for update", cause := none } :=
  rfl

/-- C6 counterexample: an input already carrying an `update_source` field
does not pass through unchanged — `convertToCanonical` overrides it with the
fixed tag, so the claim that the result contains every field of the input
unchanged fails at this concrete item. -/
theorem convertToCanonical_changes_existing_update_source :
    getField (convertToCanonical
        [("update_source", JSVal.str "previous"), ("stock", JSVal.num 5)])
        "update_source" ≠
      getField [("update_source", JSVal.str "previous"), ("stock", JSVal.num 5)]
        "update_source" := by
  intro h
  have h' : JSVal.str "Foxy-Orderdesk-Webhook" = JSVal.str "previous" := h
  injection h' with hs
  exact absurd hs (by decide)

/-- C6 amended: `convertToCanonical` is a pure projection whose result
contains every field of the input other than `update_source` and
`inventory` unchanged, has `inventory` equal to the input's `stock` field
and `update_source` equal to the fixed tag `Foxy-Orderdesk-Webhook`, and
applying it twice yields the same result as applying it once. -/
theorem convertToCanonical_spec (item : JSObj) :
    (∀ k, k ≠ "update_source" → k ≠ "inventory" →
      getField (convertToCanonical item) k = getField item k) ∧
    getField (convertToCanonical item) "update_source" =
      JSVal.str "Foxy-Orderdesk-Webhook" ∧
    getField (convertToCanonical item) "inventory" = getField item "stock" ∧
    convertToCanonical (convertToCanonical item) = convertToCanonical item := by
  have hus : getField (convertToCanonical item) "update_source" =
      JSVal.str "Foxy-Orderdesk-Webhook" := by
    unfold convertToCanonical
    rw [getField_setField_ne _ _ _ _ (by decide), getField_setField_self]
  have hinv : getField (convertToCanonical item) "inventory" = getField item "stock" := by
    unfold convertToCanonical
    rw [getField_setField_self]
  refine ⟨?_, hus, hinv, ?_⟩
  · intro k hk1 hk2
    unfold convertToCanonical
    rw [getField_setField_ne _ _ _ _ hk2, getField_setField_ne _ _ _ _ hk1]
  · have hhus : hasField (convertToCanonical item) "update_source" = true := by
      unfold convertToCanonical
      rw [hasField_setField_ne _ _ _ _ (by decide)]
      exact hasField_setField_self _ _ _
    have hhinv : hasField (convertToCanonical item) "inventory" = true := by
      unfold convertToCanonical
      exact hasField_setField_self _ _ _
    have hstock : getField (convertToCanonical item) "stock" = getField item "stock" := by
      unfold convertToCanonical
      rw [getField_setField_ne _ _ _ _ (by decide), getField_setField_ne _ _ _ _ (by decide)]
    calc convertToCanonical (convertToCanonical item)
        = setField (setField (convertToCanonical item) "update_source"
            (JSVal.str "Foxy-Orderdesk-Webhook")) "inventory"
            (getField (convertToCanonical item) "stock") := rfl
      _ = setField (convertToCanonical item) "inventory" (getField item "stock") := by
          rw [setField_eq_self _ _ _ hhus hus, hstock]
      _ = convertToCanonical item := setField_eq_self _ _ _ hhinv hinv

/-- C6 witness: on a concrete item, a field other than the two derived ones
(`name`) passes through unchanged. -/
theorem convertToCanonical_spec_witness :
    getField (convertToCanonical [("name", JSVal.str "N"), ("stock", JSVal.num 3)]) "name" =
      getField [("name", JSVal.str "N"), ("stock", JSVal.num 3)] "name" :=
  (convertToCanonical_spec [("name", JSVal.str "N"), ("stock", JSVal.num 3)]).1
    "name" (by decide) (by decide)

/-- C10: for every input item, `convertToCanonical` forces `inventory` to the
input's `stock` value and `update_source` to the fixed tag, so when the
input already carries those fields with different values they do not pass
through unchanged. -/
theorem convertToCanonical_overwrites (item : JSObj)
    (h1 : getField item "update_source" ≠ JSVal.str "Foxy-Orderdesk-Webhook")
    (h2 : getField item "inventory" ≠ getField item "stock") :
    getField (convertToCanonical item) "inventory" = getField item "stock" ∧
    getField (convertToCanonical item) "update_source" =
      JSVal.str "Foxy-Orderdesk-Webhook" ∧
    getField (convertToCanonical item) "update_source" ≠ getField item "update_source" ∧
    getField (convertToCanonical item) "inventory" ≠ getField item "inventory" := by
  have hus : getField (convertToCanonical item) "update_source" =
      JSVal.str "Foxy-Orderdesk-Webhook" := by
    unfold convertToCanonical
    rw [getField_setField_ne _ _ _ _ (by decide), getField_setField_self]
  have hinv : getField (convertToCanonical item) "inventory" = getField item "stock" := by
    unfold convertToCanonical
    rw [getField_setField_self]
  refine ⟨hinv, hus, ?_, ?_⟩
  · rw [hus]
    exact fun h => h1 h.symm
  · rw [hinv]
    exact fun h => h2 h.symm

/-- C10 witness: a concrete item whose `inventory` (1) differs from its
`stock` (7) and whose `update_source` is a stale tag has both fields
overwritten by `convertToCanonical`. -/
theorem convertToCanonical_overwrites_witness :
    getField (convertToCanonical
        [("inventory", JSVal.num 1), ("update_source", JSVal.str "old"),
         ("stock", JSVal.num 7)]) "inventory" =
      getField [("inventory", JSVal.num 1), ("update_source", JSVal.str "old"),
         ("stock", JSVal.num 7)] "stock" ∧
    getField (convertToCanonical
        [("inventory", JSVal.num 1), ("update_source", JSVal.str "old"),
         ("stock", JSVal.num 7)]) "update_source" =
      JSVal.str "Foxy-Orderdesk-Webhook" ∧
    getField (convertToCanonical
        [("inventory", JSVal.num 1), ("update_source", JSVal.str "old"),
         ("stock", JSVal.num 7)]) "update_source" ≠
      getField [("inventory", JSVal.num 1), ("update_source", JSVal.str "old"),
         ("stock", JSVal.num 7)] "update_source" ∧
    getField (convertToCanonical
        [("inventory", JSVal.num 1), ("update_source", JSVal.str "old"),
         ("stock", JSVal.num 7)]) "inventory" ≠
      getField [("inventory", JSVal.num 1), ("update_source", JSVal.str "old"),
         ("stock", JSVal.num 7)] "inventory" :=
  convertToCanonical_overwrites
    [("inventory", JSVal.num 1), ("update_source", JSVal.str "old"),
     ("stock", JSVal.num 7)]
    (by
      intro h
      have h' : JSVal.str "old" = JSVal.str "Foxy-Orderdesk-Webhook" := h
      injection h' with hs
      exact absurd hs (by decide))
    (by
      intro h
      have h' : JSVal.num 1 = JSVal.num 7 := h
      injection h' with hn
      exact absurd hn (by decide))

/-- C7: for every order payload with a customer relation but no
`fx:shipments` and no `fx:payments`, `createOrder` builds an order whose
`shipping` is the empty object and whose `cc_exp` is the literal string
`undefined/undefined`. -/
theorem createOrder_no_shipments_no_payments (ds : DataStore) (body : OrderBody)
    (c : JSObj)
    (hc : body.embedded.fxCustomer = some c)
    (hs : body.embedded.fxShipments = none)
    (hp : body.embedded.fxPayments = none) :
    ∃ req : HttpRequest VendorOrder, createOrder ds body = Except.ok (req, body) ∧
      req.body.shipping = [] ∧ req.body.cc_exp = "undefined/undefined" := by
  unfold createOrder
  rw [hc, hs, hp]
  exact ⟨_, rfl, rfl, rfl⟩

/-- C7 witness: the concrete payload with a customer and neither relation
produces `shipping = {}` and `cc_exp = "undefined/undefined"`. -/
theorem createOrder_no_shipments_no_payments_witness :
    ∃ req : HttpRequest VendorOrder,
      createOrder sampleStore orderBodyNoShipPay = Except.ok (req, orderBodyNoShipPay) ∧
      req.body.shipping = [] ∧ req.body.cc_exp = "undefined/undefined" :=
  createOrder_no_shipments_no_payments sampleStore orderBodyNoShipPay
    [("first_name", JSVal.str "Ann"), ("last_name", JSVal.str "Lee"),
     ("id", JSVal.num 7)]
    rfl rfl rfl

/-- C8 counterexample: when the parsed response body has no
`inventory_items` field, `fetchInventoryItems` returns `undefined`
(`none`), not the empty array the claim states. -/
theorem fetchInventoryItems_absent_field_is_undefined :
    (fetchInventoryItems sampleStore ["SKU1", "SKU2"] { inventory_items := none }).2 =
      none ∧
    (none : Option (List JSObj)) ≠ some [] :=
  ⟨rfl, fun h => Option.noConfusion h⟩

/-- C8 amended: `fetchInventoryItems(codes)` returns exactly the
`inventory_items` field of the parsed response — the array when the field is
present, `undefined` (not `[]`) when it is absent — after issuing a GET
whose query string carries the form-encoded comma-joined codes, e.g.
`code=SKU1%2CSKU2`. -/
theorem fetchInventoryItems_spec (ds : DataStore) (codes : List String)
    (response : InventoryItemsResponse) :
    (fetchInventoryItems ds codes response).2 = response.inventory_items ∧
    (fetchInventoryItems ds codes response).1.method = "GET" ∧
    (fetchInventoryItems ds codes response).1.url =
      buildEndpoint ds "inventory-items" ++ "?" ++
        urlSearchParamsCode (String.intercalate "," codes) ∧
    (fetchInventoryItems sampleStore ["SKU1", "SKU2"]
        { inventory_items := none }).1.url =
      "https://app.orderdesk.me/api/v2/inventory-items?code=SKU1%2CSKU2" :=
  ⟨rfl, rfl, rfl, by decide⟩

/-- C9 counterexample: after `createOrder` runs on a payload whose first
shipment carries `_links`, the caller's shipment object still contains that
link metadata (value `"L"`, not `undefined`) — the in-place deletion the
claim describes does not happen to the input. -/
theorem createOrder_keeps_links_on_callers_shipment :
    getField (firstShipmentAfter (createOrder sampleStore orderBodyWithShipmentLinks))
        "_links" = JSVal.str "L" ∧
    JSVal.str "L" ≠ JSVal.undef :=
  ⟨rfl, fun h => JSVal.noConfusion h⟩

/-- C9 amended: `createOrder` never mutates the caller's input payload at
all — `delete shipping._links` acts on the fresh object spread-copied from
the first shipment, so the order is sent with a `shipping` object lacking
`_links` while the payload (its shipment included) stands unchanged. -/
theorem createOrder_never_mutates_input (ds : DataStore) (body : OrderBody) :
    createOrderPayloadAfter ds body = body ∧
    createOrderShippingLinks ds body = JSVal.undef := by
  unfold createOrderPayloadAfter createOrderShippingLinks createOrder
  cases hc : body.embedded.fxCustomer with
  | none => simp [ouOfOption]
  | some cust =>
    cases hp : body.embedded.fxPayments with
    | none => simp [ouOfOption, getField_objDelete_self]
    | some pl =>
      cases pl with
      | nil => simp [ouOfOption, jsIndex0]
      | cons p pr => simp [ouOfOption, jsIndex0, getField_objDelete_self]

